import Mathlib

/-!
Shallow embedding of `sbutil.py` (HLiam/sbutil): a utility layer that
manipulates a mobile host's status bar through a foreign-object bridge.

The host application (`UIApplication.sharedApplication` / its `statusBar`)
is an external collaborator: it is modelled here by the list of calls the
code issues to it (`HostCall`) together with the one piece of host state
the code reads back, the current style-override code.  Python's mutable
set of glyph identifiers becomes a `Finset ℕ`; Python exceptions become an
`Option PyErr` result paired with the post-side-effect state, because host
calls already issued remain issued when an exception is raised.
-/

namespace Sbutil

/-- One call into the host's private status-bar primitives, as issued by
`sbutil.py`: `addStatusBarItem_`, `removeStatusBarItem_`,
`addStatusBarStyleOverrides_`, `removeStatusBarStyleOverrides_`, and
`setHidden_animated_`. -/
inductive HostCall where
  | addStatusBarItem (glyph : ℕ)
  | removeStatusBarItem (glyph : ℕ)
  | addStatusBarStyleOverrides (code : ℕ)
  | removeStatusBarStyleOverrides (code : ℕ)
  | setHiddenAnimated (hidden : Bool) (fadeDuration : ℚ)
  deriving DecidableEq

/-- Python exceptions the embedded code can raise. -/
inductive PyErr where
  | keyError
  | indexError
  | interrupted
  | valueError (msg : String)
  deriving DecidableEq

/-- The state of `_GlyphSet`: `_context_glyphs` (a stack of argument tuples;
here the head is the most recent, i.e. Python's `[-1]`), `_items` (the
tracked set of displayed glyph ids) and the log of calls issued to the
host application. -/
structure GlyphSet where
  contextGlyphs : List (List ℕ)
  items : Finset ℕ
  hostLog : List HostCall
  deriving DecidableEq

namespace GlyphSet

/-- `_GlyphSet.add`: `self._items.add(glyph)` then
`_app.addStatusBarItem_(glyph)`. -/
def add (g : ℕ) (s : GlyphSet) : GlyphSet :=
  { s with items := insert g s.items,
           hostLog := s.hostLog ++ [HostCall.addStatusBarItem g] }

/-- `_GlyphSet.remove`: `_app.removeStatusBarItem_(glyph)` first, then
`self._items.remove(glyph)`, which raises `KeyError` when the glyph is not
tracked.  The returned state reflects the host call already issued. -/
def remove (g : ℕ) (s : GlyphSet) : GlyphSet × Option PyErr :=
  let s1 := { s with hostLog := s.hostLog ++ [HostCall.removeStatusBarItem g] }
  if g ∈ s.items then ({ s1 with items := s.items.erase g }, none)
  else (s1, some PyErr.keyError)

/-- `_GlyphSet.clear`: `_app.removeStatusBarItem_` for every tracked glyph
(the Python set iterates in an unspecified order; modelled in ascending
order), then `self._items.clear()`. -/
def clear (s : GlyphSet) : GlyphSet :=
  { s with items := ∅,
           hostLog := s.hostLog ++
             (s.items.sort (· ≤ ·)).map HostCall.removeStatusBarItem }

/-- `_GlyphSet.__call__(*args)`: push the argument tuple on
`_context_glyphs` (head = most recent). -/
def call (args : List ℕ) (s : GlyphSet) : GlyphSet :=
  { s with contextGlyphs := args :: s.contextGlyphs }

/-- `add` folded over a list, in order: the loop body of `__enter__`. -/
def addAll (args : List ℕ) (s : GlyphSet) : GlyphSet :=
  args.foldl (fun t g => add g t) s

/-- `_GlyphSet.__enter__`: `self.add(glyph)` for each glyph in
`self._context_glyphs[-1]`; indexing an empty list raises `IndexError`. -/
def enter (s : GlyphSet) : GlyphSet × Option PyErr :=
  match s.contextGlyphs with
  | [] => (s, some PyErr.indexError)
  | args :: _ => (addAll args s, none)

/-- `remove` folded over a list, stopping at the first exception: the loop
body of `__exit__`. -/
def removeAll (args : List ℕ) (s : GlyphSet) : GlyphSet × Option PyErr :=
  match args with
  | [] => (s, none)
  | g :: rest =>
    match remove g s with
    | (s1, some e) => (s1, some e)
    | (s1, none) => removeAll rest s1

/-- `_GlyphSet.__exit__`: `self.remove(glyph)` for each glyph in
`self._context_glyphs[-1]`, then `del self._context_glyphs[-1]`; the `del`
does not run when a `remove` raises. -/
def exit (s : GlyphSet) : GlyphSet × Option PyErr :=
  match s.contextGlyphs with
  | [] => (s, some PyErr.indexError)
  | args :: rest =>
    match removeAll args s with
    | (s1, some e) => (s1, some e)
    | (s1, none) => ({ s1 with contextGlyphs := rest }, none)

end GlyphSet

/-- `_GlyphSet()` as built by `StatusBar.__init__`: empty stack, empty
tracked set, no host calls (the init loop runs over an empty set). -/
def emptyGlyphSet : GlyphSet := ⟨[], ∅, []⟩

/-- Host-side state read and written by the style and visibility code
of `StatusBar`.  Modelled host collaborator: `styleOverrides()` returns
`styleOverride`; `addStatusBarStyleOverrides_(k)` stores `k`;
`removeStatusBarStyleOverrides_(k)` clears the override when `k` is the
stored one.  `calls` logs every call issued. -/
structure Host where
  styleOverride : ℕ
  calls : List HostCall
  deriving DecidableEq

/-- `_app.addStatusBarStyleOverrides_(code)` on the modelled host. -/
def addStyleOverride (code : ℕ) (h : Host) : Host :=
  { styleOverride := code,
    calls := h.calls ++ [HostCall.addStatusBarStyleOverrides code] }

/-- `_app.removeStatusBarStyleOverrides_(code)` on the modelled host. -/
def removeStyleOverride (code : ℕ) (h : Host) : Host :=
  { styleOverride := if h.styleOverride = code then 0 else h.styleOverride,
    calls := h.calls ++ [HostCall.removeStatusBarStyleOverrides code] }

namespace StatusBar

/-- The `StatusBar.style` getter: `style_map` sends host code 1 to
success, 2 to error and 0 to `none`; `none` in the outer `Option` is the
`KeyError` that `style_map[_status_bar.styleOverrides()]` raises for a
code outside 0, 1, 2. -/
def styleGet (h : Host) : Option (Option String) :=
  if h.styleOverride = 1 then some (some "success")
  else if h.styleOverride = 2 then some (some "error")
  else if h.styleOverride = 0 then some none
  else none

/-- The setter-side `style_map`: success to 1, error to 2, `none` to 0,
applied by the setter to the value the getter returns. -/
def styleCode (v : Option String) : ℕ :=
  match v with
  | some "success" => 1
  | some "error" => 2
  | _ => 0

/-- The message of the `ValueError` the style setter raises, with Python's
`repr` of a plain string rendered as the string between apostrophes. -/
def styleErrMsg (s : String) : String :=
  "style must be \x27success\x27 or \x27error\x27, not \x27" ++ s ++ "\x27"

/-- The `StatusBar.style` setter: read the current style, issue
`removeStatusBarStyleOverrides_` for its code, then either return (for
`None`), issue `addStatusBarStyleOverrides_` (for success or error),
or raise `ValueError`. -/
def styleSet (v : Option String) (h : Host) : Host × Option PyErr :=
  match styleGet h with
  | none => (h, some PyErr.keyError)
  | some cur =>
    let h1 := removeStyleOverride (styleCode cur) h
    match v with
    | none => (h1, none)
    | some s =>
      if s = "success" then (addStyleOverride 1 h1, none)
      else if s = "error" then (addStyleOverride 2 h1, none)
      else (h1, some (PyErr.valueError (styleErrMsg s)))

/-- `StatusBar.show`: `_status_bar.setHidden_animated_(False, fade_duration)`. -/
def showBar (fadeDuration : ℚ) (h : Host) : Host :=
  { h with calls := h.calls ++ [HostCall.setHiddenAnimated false fadeDuration] }

/-- `StatusBar.hide`: `_status_bar.setHidden_animated_(True, fade_duration)`. -/
def hideBar (fadeDuration : ℚ) (h : Host) : Host :=
  { h with calls := h.calls ++ [HostCall.setHiddenAnimated true fadeDuration] }

/-- `StatusBar.show()` with the default `fade_duration=0`. -/
def showBarDefault (h : Host) : Host := showBar 0 h

/-- `StatusBar.hide()` with the default `fade_duration=0`. -/
def hideBarDefault (h : Host) : Host := hideBar 0 h

/-- `StatusBar.flash_style` (the body run by the background thread):
`try: self.style = style; time.sleep(duration) finally: self.style = None`.
`interrupted` says whether the sleep was interrupted by an exception; the
`finally` block runs in every case, and an exception it raises replaces
the body's. -/
def flash_style (v : Option String) (_duration : ℚ) (interrupted : Bool)
    (h : Host) : Host × Option PyErr :=
  let (h1, e1) := styleSet v h
  let bodyErr : Option PyErr :=
    match e1 with
    | some e => some e
    | none => if interrupted then some PyErr.interrupted else none
  let (h2, e2) := styleSet none h1
  (h2, match e2 with | some e => some e | none => bodyErr)

end StatusBar

/-- The module-level state for the borg pattern of `StatusBar`.  Python dicts
are modelled by identity: `heap d` is the content of dict `d` (its
`_active_glyphs` attribute when set, `none` for an empty dict),
`sharedId` is the dict `StatusBar._shared_state` refers to, `nextId`
supplies fresh dict identities. -/
structure Sys where
  nextId : ℕ
  sharedId : ℕ
  heap : ℕ → Option GlyphSet

/-- Module load time: `StatusBar._shared_state = {}` is the empty dict
with identity `0`. -/
def sysInit : Sys := ⟨1, 0, fun _ => none⟩

/-- `StatusBar()` / `StatusBar.__init__`: a fresh instance dict is
allocated; if `_shared_state` is non-empty the instance adopts it
(`self.__dict__ = StatusBar._shared_state`), otherwise `_shared_state`
becomes the instance dict and `_active_glyphs` is initialised in it.
Returns the identity of the instance's dict. -/
def mkStatusBar (m : Sys) : ℕ × Sys :=
  let d := m.nextId
  let m1 : Sys := { m with nextId := d + 1 }
  if (m1.heap m1.sharedId).isSome then
    (m1.sharedId, m1)
  else
    (d, { m1 with sharedId := d,
                  heap := fun i => if i = d then some emptyGlyphSet else m1.heap i })

/-- `n` successive `StatusBar()` creations, collecting the instance dict
identities in order. -/
def mkN : ℕ → Sys → List ℕ × Sys
  | 0, m => ([], m)
  | Nat.succ k, m =>
    let p := mkStatusBar m
    let q := mkN k p.2
    (p.1 :: q.1, q.2)

/-- `instance.glyphs.add(g)`: mutate the glyph set stored in the
instance's dict. -/
def addGlyphVia (d : ℕ) (g : ℕ) (m : Sys) : Sys :=
  { m with heap := fun i =>
      if i = d then (m.heap i).map (GlyphSet.add g) else m.heap i }

/-- The tracked id set of `instance.glyphs`, read through the dict of
the instance. -/
def glyphsVia (d : ℕ) (m : Sys) : Option (Finset ℕ) :=
  (m.heap d).map GlyphSet.items

/-- A concrete `_GlyphSet` state with glyph `1` already active, used to
exercise the context manager. -/
def exPre : GlyphSet := ⟨[], {1}, []⟩

/-! ### Helper lemmas -/

theorem GlyphSet.addAll_items (l : List ℕ) (s : GlyphSet) :
    (GlyphSet.addAll l s).items = l.foldl (fun u g => insert g u) s.items := by
  induction l generalizing s with
  | nil => rfl
  | cons g rest ih =>
    simpa [GlyphSet.addAll, GlyphSet.add] using ih (GlyphSet.add g s)

theorem GlyphSet.addAll_contextGlyphs (l : List ℕ) (s : GlyphSet) :
    (GlyphSet.addAll l s).contextGlyphs = s.contextGlyphs := by
  induction l generalizing s with
  | nil => rfl
  | cons g rest ih =>
    simpa [GlyphSet.addAll, GlyphSet.add] using ih (GlyphSet.add g s)

theorem mem_foldl_insert {a : ℕ} (l : List ℕ) {t : Finset ℕ} (h : a ∈ t) :
    a ∈ l.foldl (fun u g => insert g u) t := by
  induction l generalizing t with
  | nil => simpa using h
  | cons b rest ih => exact ih (Finset.mem_insert_of_mem h)

theorem foldl_insert_erase (l : List ℕ) (g : ℕ) (t : Finset ℕ) (hg : g ∉ l) :
    (l.foldl (fun u x => insert x u) t).erase g
      = l.foldl (fun u x => insert x u) (t.erase g) := by
  induction l generalizing t with
  | nil => rfl
  | cons b rest ih =>
    have hb : g ≠ b := fun h => hg (h ▸ List.mem_cons_self b rest)
    have hrest : g ∉ rest := fun h => hg (List.mem_cons_of_mem b h)
    calc ((b :: rest).foldl (fun u x => insert x u) t).erase g
        = (rest.foldl (fun u x => insert x u) (insert b t)).erase g := rfl
      _ = rest.foldl (fun u x => insert x u) ((insert b t).erase g) := ih (insert b t) hrest
      _ = rest.foldl (fun u x => insert x u) (insert b (t.erase g)) := by
            rw [Finset.erase_insert_of_ne hb.symm]

theorem GlyphSet.removeAll_restores (args : List ℕ) (t : Finset ℕ)
    (hnd : args.Nodup) (hdis : ∀ g ∈ args, g ∉ t) :
    ∀ s : GlyphSet, s.items = args.foldl (fun u g => insert g u) t →
      (GlyphSet.removeAll args s).2 = none ∧
      (GlyphSet.removeAll args s).1.items = t ∧
      (GlyphSet.removeAll args s).1.contextGlyphs = s.contextGlyphs := by
  induction args generalizing t with
  | nil =>
    intro s hs
    exact ⟨rfl, by simpa [GlyphSet.removeAll] using hs, rfl⟩
  | cons g rest ih =>
    intro s hs
    have hgt : g ∉ t := hdis g (List.mem_cons_self g rest)
    have hgrest : g ∉ rest := (List.nodup_cons.mp hnd).1
    have hmem : g ∈ s.items := by
      rw [hs, List.foldl_cons]
      exact mem_foldl_insert rest (Finset.mem_insert_self g t)
    have herase : s.items.erase g = rest.foldl (fun u x => insert x u) t := by
      rw [hs, List.foldl_cons, foldl_insert_erase rest g (insert g t) hgrest,
        Finset.erase_insert hgt]
    have hstep : GlyphSet.removeAll (g :: rest) s
        = GlyphSet.removeAll rest
            { s with items := s.items.erase g,
                     hostLog := s.hostLog ++ [HostCall.removeStatusBarItem g] } := by
      simp [GlyphSet.removeAll, GlyphSet.remove, hmem]
    rw [hstep]
    exact ih t (List.nodup_cons.mp hnd).2
      (fun g' hg' => hdis g' (List.mem_cons_of_mem g hg'))
      _ (by simpa using herase)

/-! ### Claim theorems -/

/-- C1, counterexample: with glyph `1` already active, `with glyphs(1): pass`
exits normally but leaves the active set empty instead of restoring `{1}`:
the pre-existing active glyph set is not restored when a glyph passed to
the context manager was already active before entry. -/
theorem context_manager_counterexample :
    (GlyphSet.exit ((GlyphSet.enter (GlyphSet.call [1] exPre)).1)).2 = none ∧
    (GlyphSet.exit ((GlyphSet.enter (GlyphSet.call [1] exPre)).1)).1.items = ∅ ∧
    exPre.items = {1} := by decide

/-- C1 (amended): using the glyph set as a context manager with a group of
pairwise-distinct glyph IDs none of which is already active restores the
pre-existing active glyph set on exit, whenever the block body leaves the
tracked set and the context stack as `__enter__` left them — which covers
both normal exit and exit caused by an exception raised inside the block,
since `__exit__` runs the same code in both cases; the pre-existing
context stack is arbitrary, so nested uses are covered. -/
theorem context_manager_restores (args : List ℕ) (s s1 : GlyphSet)
    (hnd : args.Nodup) (hdis : ∀ g ∈ args, g ∉ s.items)
    (hitems : s1.items = ((GlyphSet.enter (GlyphSet.call args s)).1).items)
    (hctx : s1.contextGlyphs
      = ((GlyphSet.enter (GlyphSet.call args s)).1).contextGlyphs) :
    (GlyphSet.exit s1).2 = none ∧
    (GlyphSet.exit s1).1.items = s.items ∧
    (GlyphSet.exit s1).1.contextGlyphs = s.contextGlyphs := by
  have henter1 : ((GlyphSet.enter (GlyphSet.call args s)).1).items
      = args.foldl (fun u g => insert g u) s.items := by
    simp [GlyphSet.enter, GlyphSet.call, GlyphSet.addAll_items]
  have henter2 : ((GlyphSet.enter (GlyphSet.call args s)).1).contextGlyphs
      = args :: s.contextGlyphs := by
    simp [GlyphSet.enter, GlyphSet.call, GlyphSet.addAll_contextGlyphs]
  have hctx' : s1.contextGlyphs = args :: s.contextGlyphs := hctx.trans henter2
  obtain ⟨h2, h3, h4⟩ :=
    GlyphSet.removeAll_restores args s.items hnd hdis s1 (hitems.trans henter1)
  rcases s1 with ⟨ctx1, items1, log1⟩
  simp only at hctx'
  subst hctx'
  simp only [GlyphSet.exit]
  rcases hr : GlyphSet.removeAll args ⟨args :: s.contextGlyphs, items1, log1⟩
    with ⟨s2, e2⟩
  rw [hr] at h2 h3 h4
  cases e2 with
  | some e => exact absurd h2 (by simp)
  | none => exact ⟨rfl, h3, by simp⟩

/-- C1 witness. -/
theorem context_manager_restores_witness :
    [2].Nodup ∧ (∀ g ∈ [2], g ∉ exPre.items) ∧
    ((GlyphSet.exit ((GlyphSet.enter (GlyphSet.call [2] exPre)).1)).2 = none ∧
     (GlyphSet.exit ((GlyphSet.enter (GlyphSet.call [2] exPre)).1)).1.items
       = exPre.items ∧
     (GlyphSet.exit ((GlyphSet.enter (GlyphSet.call [2] exPre)).1)).1.contextGlyphs
       = exPre.contextGlyphs) :=
  ⟨by decide, by decide,
    context_manager_restores [2] exPre _ (by decide) (by decide) rfl rfl⟩

/-- C2: each glyph-set operation keeps the tracked set in lock-step with
the calls issued to the host: `add g` makes `g` tracked and issues exactly
one host add of `g`; a successful `remove g` untracks `g` and issues
exactly one host remove of `g`; `clear` empties the tracked set and issues
a host remove for every previously tracked glyph. -/
theorem glyphSet_host_lockstep (g : ℕ) (s : GlyphSet) :
    (g ∈ (GlyphSet.add g s).items ∧
      (GlyphSet.add g s).hostLog = s.hostLog ++ [HostCall.addStatusBarItem g]) ∧
    (g ∈ s.items →
      (GlyphSet.remove g s).2 = none ∧
      g ∉ (GlyphSet.remove g s).1.items ∧
      (GlyphSet.remove g s).1.hostLog
        = s.hostLog ++ [HostCall.removeStatusBarItem g]) ∧
    ((GlyphSet.clear s).items = ∅ ∧
      ∀ g' ∈ s.items,
        HostCall.removeStatusBarItem g' ∈ (GlyphSet.clear s).hostLog) := by
  refine ⟨⟨Finset.mem_insert_self g s.items, rfl⟩, ?_, rfl, ?_⟩
  · intro hg
    exact ⟨by simp [GlyphSet.remove, hg],
      by simp [GlyphSet.remove, hg, Finset.not_mem_erase],
      by simp [GlyphSet.remove, hg]⟩
  · intro g' hg'
    have : HostCall.removeStatusBarItem g'
        ∈ (s.items.sort (· ≤ ·)).map HostCall.removeStatusBarItem :=
      List.mem_map_of_mem _ ((Finset.mem_sort _).mpr hg')
    exact List.mem_append_right _ this

/-- C2 witness. -/
theorem glyphSet_host_lockstep_witness :
    (3 : ℕ) ∈ (⟨[], {3}, []⟩ : GlyphSet).items ∧
    ((GlyphSet.remove 3 ⟨[], {3}, []⟩).2 = none ∧
     3 ∉ (GlyphSet.remove 3 ⟨[], {3}, []⟩).1.items ∧
     (GlyphSet.remove 3 ⟨[], {3}, []⟩).1.hostLog
       = (⟨[], {3}, []⟩ : GlyphSet).hostLog
           ++ [HostCall.removeStatusBarItem 3]) :=
  ⟨by decide, (glyphSet_host_lockstep 3 ⟨[], {3}, []⟩).2.1 (by decide)⟩

/-- C5: removing a glyph that is not tracked raises `KeyError` from the
underlying set operation, and the tracked set is left unchanged rather
than silently corrected. -/
theorem remove_missing_raises (g : ℕ) (s : GlyphSet) (hg : g ∉ s.items) :
    (GlyphSet.remove g s).2 = some PyErr.keyError ∧
    (GlyphSet.remove g s).1.items = s.items := by
  constructor <;> simp [GlyphSet.remove, hg]

/-- C5 witness. -/
theorem remove_missing_raises_witness :
    (7 : ℕ) ∉ (⟨[], ∅, []⟩ : GlyphSet).items ∧
    ((GlyphSet.remove 7 ⟨[], ∅, []⟩).2 = some PyErr.keyError ∧
     (GlyphSet.remove 7 ⟨[], ∅, []⟩).1.items = (⟨[], ∅, []⟩ : GlyphSet).items) :=
  ⟨by decide, remove_missing_raises 7 ⟨[], ∅, []⟩ (by decide)⟩

/-- C8: for an untracked glyph, `remove` issues the host
`removeStatusBarItem_` call first and only then raises the `KeyError`:
the host-side removal is attempted even though the operation fails. -/
theorem remove_missing_host_call (g : ℕ) (s : GlyphSet) (hg : g ∉ s.items) :
    (GlyphSet.remove g s).1.hostLog
      = s.hostLog ++ [HostCall.removeStatusBarItem g] ∧
    (GlyphSet.remove g s).2 = some PyErr.keyError := by
  constructor <;> simp [GlyphSet.remove, hg]

/-- C8 witness. -/
theorem remove_missing_host_call_witness :
    (9 : ℕ) ∉ (⟨[], {4}, []⟩ : GlyphSet).items ∧
    ((GlyphSet.remove 9 ⟨[], {4}, []⟩).1.hostLog
       = (⟨[], {4}, []⟩ : GlyphSet).hostLog
           ++ [HostCall.removeStatusBarItem 9] ∧
     (GlyphSet.remove 9 ⟨[], {4}, []⟩).2 = some PyErr.keyError) :=
  ⟨by decide, remove_missing_host_call 9 ⟨[], {4}, []⟩ (by decide)⟩

theorem data_append (a b : String) : (a ++ b).data = a.data ++ b.data := rfl

theorem styleErrMsg_mentions (s : String) :
    (∃ pre post, (StatusBar.styleErrMsg s).data
      = pre ++ "success".data ++ post) ∧
    (∃ pre post, (StatusBar.styleErrMsg s).data
      = pre ++ "error".data ++ post) := by
  constructor
  · refine ⟨"style must be \x27".data,
      "\x27 or \x27error\x27, not \x27".data ++ s.data ++ "\x27".data, ?_⟩
    show (("style must be \x27success\x27 or \x27error\x27, not \x27" ++ s)
      ++ "\x27").data = _
    rw [data_append, data_append,
      (by decide : "style must be \x27success\x27 or \x27error\x27, not \x27".data
        = "style must be \x27".data ++ "success".data
            ++ "\x27 or \x27error\x27, not \x27".data)]
    simp
  · refine ⟨"style must be \x27success\x27 or \x27".data,
      "\x27, not \x27".data ++ s.data ++ "\x27".data, ?_⟩
    show (("style must be \x27success\x27 or \x27error\x27, not \x27" ++ s)
      ++ "\x27").data = _
    rw [data_append, data_append,
      (by decide : "style must be \x27success\x27 or \x27error\x27, not \x27".data
        = "style must be \x27success\x27 or \x27".data ++ "error".data
            ++ "\x27, not \x27".data)]
    simp

theorem styleSet_override_le (v : Option String) (h : Host)
    (hwf : h.styleOverride ≤ 2) :
    (StatusBar.styleSet v h).1.styleOverride ≤ 2 := by
  obtain ⟨c, cs⟩ := h
  simp only at hwf
  interval_cases c <;> rcases v with _ | s <;>
    simp [StatusBar.styleSet, StatusBar.styleGet, StatusBar.styleCode,
      removeStyleOverride, addStyleOverride] <;>
    split_ifs <;> simp

theorem styleSet_none_clears (h : Host) (hwf : h.styleOverride ≤ 2) :
    (StatusBar.styleSet none h).1.styleOverride = 0 ∧
    (StatusBar.styleSet none h).2 = none := by
  obtain ⟨c, cs⟩ := h
  simp only at hwf
  interval_cases c <;>
    simp [StatusBar.styleSet, StatusBar.styleGet, StatusBar.styleCode,
      removeStyleOverride]

/-- C3: whatever style argument is given and however the body ends —
sleep completing, the style assignment raising, or the sleep interrupted
by an exception — the `finally` block of `flash_style` clears the style
override: after it runs the host override code is `0` and the effective
style reads back as `None`. -/
theorem flash_style_clears (v : Option String) (d : ℚ) (intr : Bool)
    (h : Host) (hwf : h.styleOverride ≤ 2) :
    (StatusBar.flash_style v d intr h).1.styleOverride = 0 ∧
    StatusBar.styleGet (StatusBar.flash_style v d intr h).1 = some none := by
  have h1 := styleSet_override_le v h hwf
  obtain ⟨hz, _⟩ := styleSet_none_clears (StatusBar.styleSet v h).1 h1
  have hfs : (StatusBar.flash_style v d intr h).1
      = (StatusBar.styleSet none (StatusBar.styleSet v h).1).1 := rfl
  rw [hfs]
  exact ⟨hz, by simp [StatusBar.styleGet, hz]⟩

/-- C3 witness. -/
theorem flash_style_clears_witness :
    (⟨2, []⟩ : Host).styleOverride ≤ 2 ∧
    ((StatusBar.flash_style (some "bogus") 1 true ⟨2, []⟩).1.styleOverride = 0 ∧
     StatusBar.styleGet (StatusBar.flash_style (some "bogus") 1 true
       ⟨2, []⟩).1 = some none) :=
  ⟨by decide, flash_style_clears (some "bogus") 1 true ⟨2, []⟩ (by decide)⟩

/-- C4: assigning any string other than success and error to
`StatusBar.style` raises a `ValueError` whose message names both allowed
style strings, while each of the three allowed values — `None`,
`success`, `error` — is assigned without raising. -/
theorem style_setter_validation (h : Host) (s : String)
    (hwf : h.styleOverride ≤ 2) (hs : s ≠ "success") (he : s ≠ "error") :
    ((StatusBar.styleSet (some s) h).2
        = some (PyErr.valueError (StatusBar.styleErrMsg s)) ∧
      (∃ pre post, (StatusBar.styleErrMsg s).data
        = pre ++ "success".data ++ post) ∧
      (∃ pre post, (StatusBar.styleErrMsg s).data
        = pre ++ "error".data ++ post)) ∧
    (StatusBar.styleSet none h).2 = none ∧
    (StatusBar.styleSet (some "success") h).2 = none ∧
    (StatusBar.styleSet (some "error") h).2 = none := by
  obtain ⟨hm1, hm2⟩ := styleErrMsg_mentions s
  obtain ⟨c, cs⟩ := h
  simp only at hwf
  refine ⟨⟨?_, hm1, hm2⟩, ?_, ?_, ?_⟩ <;>
    interval_cases c <;>
    simp [StatusBar.styleSet, StatusBar.styleGet, StatusBar.styleCode,
      removeStyleOverride, addStyleOverride, hs, he]

/-- C4 witness. -/
theorem style_setter_validation_witness :
    (⟨0, []⟩ : Host).styleOverride ≤ 2 ∧ "warn" ≠ "success" ∧ "warn" ≠ "error" ∧
    (((StatusBar.styleSet (some "warn") ⟨0, []⟩).2
        = some (PyErr.valueError (StatusBar.styleErrMsg "warn")) ∧
      (∃ pre post, (StatusBar.styleErrMsg "warn").data
        = pre ++ "success".data ++ post) ∧
      (∃ pre post, (StatusBar.styleErrMsg "warn").data
        = pre ++ "error".data ++ post)) ∧
     (StatusBar.styleSet none ⟨0, []⟩).2 = none ∧
     (StatusBar.styleSet (some "success") ⟨0, []⟩).2 = none ∧
     (StatusBar.styleSet (some "error") ⟨0, []⟩).2 = none) :=
  ⟨by decide, by decide, by decide,
    style_setter_validation ⟨0, []⟩ "warn" (by decide) (by decide) (by decide)⟩

/-- C6: the style is tri-state, with host override codes 0 for `None`,
1 for success and 2 for error, and setting then reading any
allowed style returns it unchanged on the modelled (faithful) host. -/
theorem style_roundtrip (h : Host) (v : Option String)
    (hwf : h.styleOverride ≤ 2)
    (hv : v = none ∨ v = some "success" ∨ v = some "error") :
    StatusBar.styleGet ((StatusBar.styleSet v h).1) = some v ∧
    (StatusBar.styleSet none h).1.styleOverride = 0 ∧
    (StatusBar.styleSet (some "success") h).1.styleOverride = 1 ∧
    (StatusBar.styleSet (some "error") h).1.styleOverride = 2 := by
  obtain ⟨c, cs⟩ := h
  simp only at hwf
  rcases hv with rfl | rfl | rfl <;>
    interval_cases c <;>
    simp [StatusBar.styleSet, StatusBar.styleGet, StatusBar.styleCode,
      removeStyleOverride, addStyleOverride]

/-- C6 witness. -/
theorem style_roundtrip_witness :
    (⟨1, []⟩ : Host).styleOverride ≤ 2 ∧
    (some "error" = none ∨ (some "error" : Option String) = some "success" ∨
      (some "error" : Option String) = some "error") ∧
    (StatusBar.styleGet ((StatusBar.styleSet (some "error") ⟨1, []⟩).1)
        = some (some "error") ∧
     (StatusBar.styleSet none ⟨1, []⟩).1.styleOverride = 0 ∧
     (StatusBar.styleSet (some "success") ⟨1, []⟩).1.styleOverride = 1 ∧
     (StatusBar.styleSet (some "error") ⟨1, []⟩).1.styleOverride = 2) :=
  ⟨by decide, by simp,
    style_roundtrip ⟨1, []⟩ (some "error") (by decide) (by simp)⟩

/-- C7: an invalid style assignment is not atomic: the setter issues the
host `removeStatusBarStyleOverrides_` call for the currently active
override before raising the `ValueError`, so after the failed assignment
the override code is `0` and the effective style is `None`, not the
previous style. -/
theorem style_setter_not_atomic (h : Host) (s : String)
    (hwf : h.styleOverride ≤ 2) (hs : s ≠ "success") (he : s ≠ "error") :
    (StatusBar.styleSet (some s) h).2
      = some (PyErr.valueError (StatusBar.styleErrMsg s)) ∧
    HostCall.removeStatusBarStyleOverrides h.styleOverride
      ∈ (StatusBar.styleSet (some s) h).1.calls ∧
    (StatusBar.styleSet (some s) h).1.styleOverride = 0 ∧
    StatusBar.styleGet (StatusBar.styleSet (some s) h).1 = some none := by
  obtain ⟨c, cs⟩ := h
  simp only at hwf
  interval_cases c <;>
    simp [StatusBar.styleSet, StatusBar.styleGet, StatusBar.styleCode,
      removeStyleOverride, addStyleOverride, hs, he]

/-- C7 witness. -/
theorem style_setter_not_atomic_witness :
    (⟨2, []⟩ : Host).styleOverride ≤ 2 ∧ "blue" ≠ "success" ∧ "blue" ≠ "error" ∧
    ((StatusBar.styleSet (some "blue") ⟨2, []⟩).2
       = some (PyErr.valueError (StatusBar.styleErrMsg "blue")) ∧
     HostCall.removeStatusBarStyleOverrides (⟨2, []⟩ : Host).styleOverride
       ∈ (StatusBar.styleSet (some "blue") ⟨2, []⟩).1.calls ∧
     (StatusBar.styleSet (some "blue") ⟨2, []⟩).1.styleOverride = 0 ∧
     StatusBar.styleGet (StatusBar.styleSet (some "blue") ⟨2, []⟩).1
       = some none) :=
  ⟨by decide, by decide, by decide,
    style_setter_not_atomic ⟨2, []⟩ "blue" (by decide) (by decide) (by decide)⟩

/-- C9: `show` forwards exactly one `setHidden_animated_(False, d)` call
and `hide` exactly one `setHidden_animated_(True, d)` call for the given
fade duration `d`, and the no-argument forms use the default duration 0. -/
theorem show_hide_forward (d : ℚ) (h : Host) :
    (StatusBar.showBar d h).calls
      = h.calls ++ [HostCall.setHiddenAnimated false d] ∧
    (StatusBar.hideBar d h).calls
      = h.calls ++ [HostCall.setHiddenAnimated true d] ∧
    StatusBar.showBarDefault h = StatusBar.showBar 0 h ∧
    StatusBar.hideBarDefault h = StatusBar.hideBar 0 h :=
  ⟨rfl, rfl, rfl, rfl⟩

theorem mkStatusBar_populated (m : Sys) (h : (m.heap m.sharedId).isSome) :
    mkStatusBar m = (m.sharedId, { m with nextId := m.nextId + 1 }) := by
  simp [mkStatusBar, h]

theorem mkN_populated (k : ℕ) (m : Sys) (h : (m.heap m.sharedId).isSome) :
    (mkN k m).1 = List.replicate k m.sharedId ∧
    (mkN k m).2.sharedId = m.sharedId ∧
    (mkN k m).2.heap = m.heap := by
  induction k generalizing m with
  | zero => exact ⟨rfl, rfl, rfl⟩
  | succ n ih =>
    have hm := mkStatusBar_populated m h
    have h' : (({ m with nextId := m.nextId + 1 } : Sys).heap
        ({ m with nextId := m.nextId + 1 } : Sys).sharedId).isSome := h
    obtain ⟨i1, i2, i3⟩ := ih { m with nextId := m.nextId + 1 } h'
    refine ⟨?_, ?_, ?_⟩ <;>
      simp [mkN, hm, i1, i2, i3, List.replicate_succ]

/-- C10: `StatusBar` is a borg: every sequence of `StatusBar()` creations
from module load yields instances that all share one state dict (identity
`1`, the dict of the first instance), and a glyph added through any
created instance is visible — as the same tracked set — through every
created instance. -/
theorem statusBar_borg (k : ℕ) :
    (mkN k sysInit).1 = List.replicate k 1 ∧
    ∀ g d d', d ∈ (mkN k sysInit).1 → d' ∈ (mkN k sysInit).1 →
      glyphsVia d' (addGlyphVia d g (mkN k sysInit).2) = some {g} := by
  cases k with
  | zero =>
    refine ⟨rfl, ?_⟩
    intro g d d' hd _
    simp [mkN] at hd
  | succ n =>
    have h0 : mkStatusBar sysInit
        = (1, ⟨2, 1, fun i => if i = 1 then some emptyGlyphSet else none⟩) := rfl
    have hpop : ((⟨2, 1, fun i => if i = 1 then some emptyGlyphSet else none⟩ :
        Sys).heap (⟨2, 1, fun i => if i = 1 then some emptyGlyphSet else none⟩ :
        Sys).sharedId).isSome := rfl
    obtain ⟨i1, i2, i3⟩ := mkN_populated n
      ⟨2, 1, fun i => if i = 1 then some emptyGlyphSet else none⟩ hpop
    have hstep : mkN (n + 1) sysInit
        = (1 :: (mkN n ⟨2, 1,
              fun i => if i = 1 then some emptyGlyphSet else none⟩).1,
           (mkN n ⟨2, 1,
              fun i => if i = 1 then some emptyGlyphSet else none⟩).2) := by
      simp [mkN, h0]
    constructor
    · rw [hstep]
      simp [i1, List.replicate_succ]
    · intro g d d' hd hd'
      rw [hstep] at hd hd' ⊢
      have hone : ∀ x : ℕ, x ∈ 1 :: (mkN n (⟨2, 1,
          fun i => if i = 1 then some emptyGlyphSet else none⟩ : Sys)).1 →
          x = 1 := by
        intro x hx
        rcases List.mem_cons.mp hx with hx | hx
        · exact hx
        · rw [i1] at hx
          exact List.eq_of_mem_replicate hx
      rw [hone d hd, hone d' hd']
      simp only [glyphsVia, addGlyphVia]
      rw [i3]
      simp [GlyphSet.add, emptyGlyphSet]

/-- C10 witness. -/
theorem statusBar_borg_witness :
    (1 ∈ (mkN 2 sysInit).1) ∧
    glyphsVia 1 (addGlyphVia 1 5 (mkN 2 sysInit).2) = some {5} :=
  ⟨by decide, (statusBar_borg 2).2 5 1 1 (by decide) (by decide)⟩

end Sbutil
